import Mathlib

/-!
Verification of the john-migrator repository against its specification.

The CLI dispatch (src/cli.py), the manager helpers (src/migration_manager.py)
and the two generators (src/model_to_migration_generator.py,
src/orm_generator.py) are embedded directly from the source.  The migration
runner, applied-state store and catalog discovery are imported by the manager
(`migration_runner.py`, `database_manager.py`, `migration_generator.py`) but
those files are not part of the visible sources, so they are modelled from the
specification; every such definition carries a doc comment saying so.
-/

namespace JohnMigrator

/-! ## CLI model (from src/cli.py) -/

/-- The recognized keywords of the `alter` command, from
`cli.py` line 85: `operations[i] in ['add', 'drop', 'modify', 'rename']`. -/
def alterKeywords : List String := ["add", "drop", "modify", "rename"]

/-- The `alter` token loop of `cli.py` lines 82-94, translated with the
remaining token list in place of the index `i` (the loop only reads
`operations[i]` and `operations[i+1]` and advances `i`); `acc` is the
`formatted_operations` accumulator and `warns` collects the warning lines. -/
def formatOpsGo : List String → List String → List String → List String × List String
  | [], acc, warns => (acc, warns)
  | [op], acc, warns =>
    if op ∈ alterKeywords then
      (acc, warns ++ ["Incomplete operation: " ++ op])
    else
      (acc, warns ++ ["Unknown operation: " ++ op])
  | op :: arg :: rest, acc, warns =>
    if op ∈ alterKeywords then
      formatOpsGo rest (acc ++ [op ++ " " ++ arg]) warns
    else
      formatOpsGo (arg :: rest) acc (warns ++ ["Unknown operation: " ++ op])

/-- The `alter` token parsing of `cli.py`, started with empty accumulators. -/
def formatOperations (operations : List String) : List String × List String :=
  formatOpsGo operations [] []

/-- Statement of claim C10 in the spec's own words, for comparison with the
code's loop: emit one `"<keyword> <argument>"` per keyword immediately
followed by another token (consuming both); skip, with a warning, a
non-keyword token or a keyword in final position, and keep going. -/
def formatOperationsSpec : List String → List String × List String
  | [] => ([], [])
  | [op] =>
    if op ∈ alterKeywords then
      ([], ["Incomplete operation: " ++ op])
    else
      ([], ["Unknown operation: " ++ op])
  | op :: arg :: rest =>
    if op ∈ alterKeywords then
      ((op ++ " " ++ arg) :: (formatOperationsSpec rest).1, (formatOperationsSpec rest).2)
    else
      ((formatOperationsSpec (arg :: rest)).1,
        ("Unknown operation: " ++ op) :: (formatOperationsSpec (arg :: rest)).2)

/-- A call made on the `MigrationManager` instance by the CLI dispatch. -/
inductive ManagerCall where
  | initProject : ManagerCall
  | createMigration : String → List String → ManagerCall
  | createAlterMigration : String → List String → ManagerCall
  | runMigrations : ManagerCall
  | rollbackMigrations : ManagerCall
  | getStatus : ManagerCall
  | syncAllModels : ManagerCall
  | generateFromModels : String → List String → ManagerCall
deriving DecidableEq, Repr

/-- Outcomes of the side-effecting collaborators the CLI reaches through
`MigrationManager`: for each operation, `some msg` means the underlying call
raises an exception with that message, `none` means it returns normally.
`ormEnabled` is `Config.GENERATE_ORM_MODELS`; `initFileExists` and
`initUserConfirms` drive the interactive prompt of `init_project`;
`syncUpdatedModels` and `fromModelGenerated` are the lists the generators
return on success. -/
structure ManagerEnv where
  initFileExists : Bool
  initUserConfirms : Bool
  initWriteRaises : Option String
  createRaises : Option String
  alterRaises : Option String
  upRaises : Option String
  downRaises : Option String
  statusRaises : Option String
  ormEnabled : Bool
  syncRaises : Option String
  syncUpdatedModels : List String
  fromModelRaises : Option String
  fromModelGenerated : List String

/-- Result of one CLI invocation: the process exit code, whether any
error line (the source's `❌`-prefixed messages) was printed, and the
manager operations that were invoked. -/
structure CliResult where
  exitCode : Nat
  errorReported : Bool
  calls : List ManagerCall
deriving DecidableEq, Repr

/-- Dispatch of one manager operation under `main`'s `try/except`: an
exception escaping the manager is caught, reported and turns into exit 1
(`cli.py` lines 152-154); otherwise the command falls through to exit 0. -/
def runManagerOp (raises : Option String) (call : ManagerCall) : CliResult :=
  match raises with
  | some _ => ⟨1, true, [call]⟩
  | none => ⟨0, false, [call]⟩

/-- The CLI entry point `main` of `cli.py`, over the argument list after the
program name (`sys.argv[1:]`).  Each branch is translated from the source:
`init` inlines `MigrationManager.init_project` (its cancelled-overwrite path
prints an error and returns normally), `sync` inlines
`MigrationManager.sync_orm_models` and `from-model` inlines
`MigrationManager.generate_migrations_from_models` (both catch exceptions
from the generators, report them and return normally, so those paths exit 0).
The `run` branch reproduces the source exactly: it checks the argument count
and validates the action string, and then does nothing further. -/
def cliMain (args : List String) (env : ManagerEnv) : CliResult :=
  match args with
  | [] => ⟨1, false, []⟩
  | command :: rest =>
    if command = "init" then
      if env.initFileExists && !env.initUserConfirms then
        ⟨0, true, [ManagerCall.initProject]⟩
      else
        match env.initWriteRaises with
        | some _ => ⟨1, true, [ManagerCall.initProject]⟩
        | none => ⟨0, false, [ManagerCall.initProject]⟩
    else if command = "create" then
      match rest with
      | [] => ⟨1, true, []⟩
      | name :: cols => runManagerOp env.createRaises (ManagerCall.createMigration name cols)
    else if command = "alter" then
      match rest with
      | table :: op :: ops =>
        runManagerOp env.alterRaises
          (ManagerCall.createAlterMigration table (formatOperations (op :: ops)).1)
      | _ => ⟨1, true, []⟩
    else if command = "up" then
      runManagerOp env.upRaises ManagerCall.runMigrations
    else if command = "down" then
      runManagerOp env.downRaises ManagerCall.rollbackMigrations
    else if command = "status" then
      runManagerOp env.statusRaises ManagerCall.getStatus
    else if command = "run" then
      match rest with
      | _ :: action :: _ =>
        if action = "up" ∨ action = "down" then
          ⟨0, false, []⟩
        else
          ⟨1, true, []⟩
      | _ => ⟨1, true, []⟩
    else if command = "sync" then
      if !env.ormEnabled then
        ⟨0, true, []⟩
      else
        match env.syncRaises with
        | some _ => ⟨0, true, [ManagerCall.syncAllModels]⟩
        | none => ⟨0, false, [ManagerCall.syncAllModels]⟩
    else if command = "from-model" then
      match rest with
      | [] => ⟨1, true, []⟩
      | path :: names =>
        match env.fromModelRaises with
        | some _ => ⟨0, true, [ManagerCall.generateFromModels path names]⟩
        | none =>
          if env.fromModelGenerated.isEmpty then
            ⟨0, true, [ManagerCall.generateFromModels path names]⟩
          else
            ⟨0, false, [ManagerCall.generateFromModels path names]⟩
    else
      ⟨1, true, []⟩

/-- A manager environment in which every operation succeeds. -/
def envAllOk : ManagerEnv :=
  ⟨false, false, none, none, none, none, none, none, true, none, ["models/users.py"], none,
    ["migrations/m_1_create_users_table.py"]⟩

/-- A manager environment in which the model-to-migration generator raises. -/
def envFromModelFail : ManagerEnv :=
  ⟨false, false, none, none, none, none, none, none, true, none, [], some "boom", []⟩

/-- A manager environment in which the ORM sync raises. -/
def envSyncFail : ManagerEnv :=
  ⟨false, false, none, none, none, none, none, none, true, some "boom", [], none, []⟩

/-! ## Manager helpers (from src/migration_manager.py) -/

/-- The pending-migration computation of `migration_manager.py` lines 127-131:
`[m for m in all_migrations if m not in applied]`, over migration
identifiers. -/
def get_pending_migrations (all_migrations applied : List String) : List String :=
  all_migrations.filter (fun m => decide (m ∉ applied))

/-! ## Type mappings (from src/model_to_migration_generator.py and
src/orm_generator.py) -/

/-- The SQLAlchemy-to-SQL map `ModelToMigrationGenerator.TYPE_MAPPING`
(`model_to_migration_generator.py` lines 19-33), as an association list in
source order (its keys are distinct, so first-match lookup agrees with the
Python dict). -/
def modelToMigrationTypeMapping : List (String × String) :=
  [("String", "varchar"),
   ("Text", "text"),
   ("Integer", "integer"),
   ("BigInteger", "bigint"),
   ("SmallInteger", "smallint"),
   ("Float", "decimal"),
   ("Numeric", "decimal"),
   ("Boolean", "boolean"),
   ("DateTime", "timestamp"),
   ("Date", "date"),
   ("Time", "time"),
   ("JSON", "json"),
   ("UUID", "uuid")]

/-- The SQL-to-SQLAlchemy map `ORMGenerator.TYPE_MAPPING`
(`orm_generator.py` lines 16-38), as an association list in source order. -/
def ormTypeMapping : List (String × String) :=
  [("varchar", "String"),
   ("char", "String"),
   ("text", "Text"),
   ("integer", "Integer"),
   ("int", "Integer"),
   ("bigint", "BigInteger"),
   ("smallint", "SmallInteger"),
   ("decimal", "Float"),
   ("numeric", "Float"),
   ("real", "Float"),
   ("double", "Float"),
   ("boolean", "Boolean"),
   ("bool", "Boolean"),
   ("timestamp", "DateTime"),
   ("datetime", "DateTime"),
   ("date", "Date"),
   ("time", "Time"),
   ("json", "JSON"),
   ("uuid", "String"),
   ("serial", "Integer"),
   ("bigserial", "BigInteger")]

/-- Dictionary lookup (`dict.get`) on an association list with distinct
keys. -/
def lookupType : List (String × String) → String → Option String
  | [], _ => none
  | (k, v) :: rest, key => if key = k then some v else lookupType rest key

/-- The keys of an association list. -/
def mappingKeys (m : List (String × String)) : List String :=
  m.map Prod.fst

/-- Round trip of a SQLAlchemy type name through
`ModelToMigrationGenerator.TYPE_MAPPING` and then
`ORMGenerator.TYPE_MAPPING`. -/
def typeRoundTrip (s : String) : Option String :=
  (lookupType modelToMigrationTypeMapping s).bind (lookupType ormTypeMapping)

/-! ## Migration content generation
(from src/model_to_migration_generator.py, `_create_migration_content`) -/

/-- Column description extracted from a model, as consumed by
`_create_migration_content`: name, SQL type and constraint strings. -/
structure ColumnInfo where
  name : String
  sqlType : String
  constraints : List String

/-- One generated column line, from `_create_migration_content` lines
310-316: `f"            {column['name']} {column['type'].upper()}"`, the
joined constraints when present, then a trailing comma. -/
def columnSqlLine (c : ColumnInfo) : String :=
  let base := "            " ++ c.name ++ " " ++ c.sqlType.toUpper
  let base := if c.constraints.isEmpty then base else base ++ " " ++ String.intercalate " " c.constraints
  base ++ ","

/-- The joined column block of `_create_migration_content` line 318, with the
default `name VARCHAR(255),` line when no columns were extracted. -/
def columnsText (columns : List ColumnInfo) : String :=
  if columns.isEmpty then
    "            name VARCHAR(255),"
  else
    String.intercalate "\n" (columns.map columnSqlLine)

/-- The string the generated migration's `up()` method returns: the
triple-quoted `CREATE TABLE` statement of `_create_migration_content`
lines 327-335, with `table_name` and `columns_text` interpolated. -/
def migrationUpReturn (table_name : String) (columns : List ColumnInfo) : String :=
  "\n        CREATE TABLE " ++ table_name ++ " (\n            id SERIAL PRIMARY KEY,\n"
    ++ columnsText columns
    ++ "\n            created_at TIMESTAMP DEFAULT NOW(),\n            updated_at TIMESTAMP DEFAULT NOW()\n        );\n        "

/-- The string the generated migration's `down()` method returns: the
`DROP TABLE IF EXISTS "{table_name}";` statement of
`_create_migration_content` line 338, with `table_name` interpolated. -/
def migrationDownReturn (table_name : String) : String :=
  "DROP TABLE IF EXISTS \"" ++ table_name ++ "\";"

/-- The full migration file content assembled by `_create_migration_content`
lines 321-339 (the Python f-string interpolates `model_name`, `table_name`
and `columns_text` at generation time). -/
def create_migration_content (model_name table_name : String)
    (columns : List ColumnInfo) : String :=
  "from john_migrator.migrations.base_migration import BaseMigration\n\nclass "
    ++ model_name
    ++ "(BaseMigration):\n    def __init__(self):\n        self.table_name = \""
    ++ table_name
    ++ "\"\n\n    def up(self):\n        return \"\"\""
    ++ migrationUpReturn table_name columns
    ++ "\"\"\"\n\n    def down(self):\n        return f\x27"
    ++ migrationDownReturn table_name
    ++ "\x27\n"

/-! ## Schema-level semantics of the two generated statements -/

/-- Schema-level effect of `CREATE TABLE t (...)` on the set of existing
tables (legal only when `t` is absent): the table is added. -/
def createTable (t : String) (schema : List String) : List String :=
  schema ++ [t]

/-- Schema-level effect of `DROP TABLE IF EXISTS t` on the set of existing
tables: every occurrence of `t` is removed. -/
def dropTableIfExists (t : String) (schema : List String) : List String :=
  schema.filter (fun x => decide (x ≠ t))

/-! ## Migration runner and applied-state store

Modelled from the spec: `migration_runner.py` and `database_manager.py` are
imported by `migration_manager.py` but are not among the visible sources, so
the runner, the ledger and catalog discovery below follow the specification
(sections 3, 4.1, 4.2 and 4.3) rather than source code. -/

/-- Modelled from the spec: a MigrationUnit as the runner sees it — a stable
identifier; its forward/reverse statements are executed through the database
environment below (spec section 3). -/
structure MigrationUnit where
  id : String
deriving DecidableEq, Repr

/-- Modelled from the spec: one AppliedRecord of the ledger —
`(migration_id, batch, applied_at)` (spec section 3; `applied_at` is an
abstract monotone clock). -/
structure AppliedRecord where
  migration_id : String
  batch : Nat
  applied_at : Nat
deriving DecidableEq, Repr

/-- Modelled from the spec: the target database as the runner observes it —
for each unit id, whether executing its forward (resp. reverse) statements
fails, and with which database error message (`none` means success). -/
structure DbEnv where
  forwardErr : String → Option String
  reverseErr : String → Option String

/-- Modelled from the spec: `applied_ids()` of the Applied-State Store (spec
section 4.2), as the list of recorded ids. -/
def appliedIds (ledger : List AppliedRecord) : List String :=
  ledger.map AppliedRecord.migration_id

/-- Modelled from the spec: `pending(applied)` of the Catalog (spec section
4.1) — all units whose id is not applied, preserving catalog order. -/
def pendingUnits (catalog : List MigrationUnit) (ledger : List AppliedRecord) :
    List MigrationUnit :=
  catalog.filter (fun u => decide (u.id ∉ appliedIds ledger))

/-- Modelled from the spec: the highest existing batch number, 0 when the
ledger is empty (spec section 4.2). -/
def maxBatch (ledger : List AppliedRecord) : Nat :=
  (ledger.map AppliedRecord.batch).foldr max 0

/-- Modelled from the spec: `next_batch()` = max existing batch + 1, or 1 if
the ledger is empty (spec section 4.2). -/
def nextBatch (ledger : List AppliedRecord) : Nat :=
  maxBatch ledger + 1

/-- Modelled from the spec: `record_applied(id, batch)` (spec sections 3 and
4.2) — append one AppliedRecord; at most one record per `migration_id`
(recording an already-applied id is a no-op). -/
def record_applied (id : String) (batch applied_at : Nat)
    (ledger : List AppliedRecord) : List AppliedRecord :=
  if id ∈ appliedIds ledger then ledger
  else ledger ++ [⟨id, batch, applied_at⟩]

/-- Modelled from the spec: `unrecord(id)` (spec section 4.2) — delete the
record of the given id. -/
def unrecord (id : String) (ledger : List AppliedRecord) : List AppliedRecord :=
  ledger.filter (fun r => decide (r.migration_id ≠ id))

/-- Insertion of a record into a list sorted by `applied_at` descending. -/
def insertByAppliedAtDesc (r : AppliedRecord) :
    List AppliedRecord → List AppliedRecord
  | [] => [r]
  | s :: rest =>
    if s.applied_at ≤ r.applied_at then r :: s :: rest
    else s :: insertByAppliedAtDesc r rest

/-- Sort by `applied_at` descending (insertion sort). -/
def sortByAppliedAtDesc (l : List AppliedRecord) : List AppliedRecord :=
  l.foldr insertByAppliedAtDesc []

/-- Modelled from the spec: `last_batch_ids()` (spec section 4.2) — the ids
of the units in the highest existing batch, ordered by `applied_at`
descending (reverse-application order). -/
def lastBatchIds (ledger : List AppliedRecord) : List String :=
  (sortByAppliedAtDesc
      (ledger.filter (fun r => decide (r.batch = maxBatch ledger)))).map
    AppliedRecord.migration_id

/-- Modelled from the spec: outcome of one `up` invocation of the Runner —
the resulting ledger, the ids whose forward statements were executed (the
failing attempt included), the ids whose per-unit transaction committed, and
the reported failure (failing unit id and database error), if any. -/
structure UpResult where
  ledger : List AppliedRecord
  executed : List String
  committed : List String
  failed : Option (String × String)
deriving DecidableEq, Repr

/-- Modelled from the spec: the per-unit loop of `up` (spec section 4.3) —
for each pending unit in order, open a transaction, execute `forward`, on
success `record_applied(id, batch)` and commit; on failure roll the unit's
transaction back, stop, and report the unit id and the database error. -/
def runUpAux (env : DbEnv) (batch : Nat) :
    Nat → List MigrationUnit → List AppliedRecord → UpResult
  | _, [], ledger => ⟨ledger, [], [], none⟩
  | clock, u :: rest, ledger =>
    match env.forwardErr u.id with
    | some e => ⟨ledger, [u.id], [], some (u.id, e)⟩
    | none =>
      let r := runUpAux env batch (clock + 1) rest (record_applied u.id batch clock ledger)
      ⟨r.ledger, u.id :: r.executed, u.id :: r.committed, r.failed⟩

/-- Modelled from the spec: `up` (spec section 4.3) — compute the pending
units, allocate one fresh batch, and apply them in chronological order. -/
def runUp (catalog : List MigrationUnit) (ledger : List AppliedRecord)
    (env : DbEnv) : UpResult :=
  runUpAux env (nextBatch ledger) ledger.length (pendingUnits catalog ledger) ledger

/-- Modelled from the spec: outcome of one `down` invocation of the Runner —
the resulting ledger, the ids unrecorded in order, whether the
"nothing to roll back" no-op path was taken, and the reported failure, if
any. -/
structure DownResult where
  ledger : List AppliedRecord
  removed : List String
  nothingToRollBack : Bool
  failed : Option (String × String)
deriving DecidableEq, Repr

/-- Modelled from the spec: the per-unit loop of `down` (spec section 4.3) —
for each id in reverse-application order, open a transaction, execute its
`reverse`, on success `unrecord(id)` and commit; on failure stop, leaving the
failing unit and everything after it applied. -/
def runDownAux (env : DbEnv) : List String → List AppliedRecord → DownResult
  | [], ledger => ⟨ledger, [], false, none⟩
  | id :: rest, ledger =>
    match env.reverseErr id with
    | some e => ⟨ledger, [], false, some (id, e)⟩
    | none =>
      let r := runDownAux env rest (unrecord id ledger)
      ⟨r.ledger, id :: r.removed, false, r.failed⟩

/-- Modelled from the spec: `down` (spec section 4.3) — if the ledger is
empty, report "nothing to roll back" and return successfully; otherwise roll
back the units of the highest existing batch in reverse-application order. -/
def runDown (ledger : List AppliedRecord) (env : DbEnv) : DownResult :=
  if ledger.isEmpty then ⟨ledger, [], true, none⟩
  else runDownAux env (lastBatchIds ledger) ledger

/-- Modelled from the spec: the ledger after `run(id, direction)` (spec
section 4.3) — `NotFoundError` when the id is absent from the catalog;
explicit up adds the single record with batch "current max + 1" (a no-op when
already applied, per the section 3 invariant); explicit down requires an
existing record (`NotAppliedError` otherwise) and removes it; a database
failure leaves the ledger untouched. -/
def runSpecificLedger (catalog : List MigrationUnit) (ledger : List AppliedRecord)
    (id : String) (isUp : Bool) (env : DbEnv) : List AppliedRecord :=
  if id ∉ catalog.map MigrationUnit.id then ledger
  else if isUp then
    match env.forwardErr id with
    | some _ => ledger
    | none => record_applied id (maxBatch ledger + 1) ledger.length ledger
  else if id ∉ appliedIds ledger then ledger
  else
    match env.reverseErr id with
    | some _ => ledger
    | none => unrecord id ledger

/-- Modelled from the spec: one CLI-level operation against the target
database — `up`, `down`, or an explicit `run <id> <up|down>` — carrying the
catalog visible to that invocation and the database behaviour during it. -/
inductive RunnerOp where
  | up : List MigrationUnit → DbEnv → RunnerOp
  | down : DbEnv → RunnerOp
  | runOne : List MigrationUnit → String → Bool → DbEnv → RunnerOp

/-- Modelled from the spec: the ledger reached after one runner operation. -/
def stepLedger (ledger : List AppliedRecord) : RunnerOp → List AppliedRecord
  | RunnerOp.up catalog env => (runUp catalog ledger env).ledger
  | RunnerOp.down env => (runDown ledger env).ledger
  | RunnerOp.runOne catalog id isUp env => runSpecificLedger catalog ledger id isUp env

/-! ## Catalog discovery

Modelled from the spec: catalog discovery lives in the unshipped
`migration_generator.py`; the model below follows spec section 4.1. -/

/-- Modelled from the spec: one file found in the migration directory —
either it loads into a unit, or it is malformed (`parsed = none`). -/
structure RawUnit where
  filename : String
  parsed : Option MigrationUnit
deriving DecidableEq, Repr

/-- Modelled from the spec: the discovery failure taxonomy of spec sections
4.1 and 7. -/
inductive CatalogError where
  | discoveryError : String → CatalogError
  | duplicateIdError : String → CatalogError
deriving DecidableEq, Repr

/-- Modelled from the spec: load every discovered file, failing on the first
malformed unit — a malformed unit is surfaced, never skipped. -/
def parseAllUnits : List RawUnit → Except CatalogError (List MigrationUnit)
  | [] => Except.ok []
  | f :: fs =>
    match f.parsed with
    | none => Except.error (CatalogError.discoveryError ("failed to load " ++ f.filename))
    | some u =>
      match parseAllUnits fs with
      | Except.error e => Except.error e
      | Except.ok us => Except.ok (u :: us)

/-- First identifier that occurs twice in the list, if any. -/
def firstDuplicate : List String → Option String
  | [] => none
  | x :: xs => if x ∈ xs then some x else firstDuplicate xs

/-- Modelled from the spec: catalog discovery (spec section 4.1) — fails with
`DiscoveryError` if the migration directory is unreadable or any unit fails
to load, and with `DuplicateIdError` if two units share an id; otherwise
returns the loaded units. -/
def discover (dirReadable : Bool) (files : List RawUnit) :
    Except CatalogError (List MigrationUnit) :=
  if !dirReadable then
    Except.error (CatalogError.discoveryError "migration directory is unreadable")
  else
    match parseAllUnits files with
    | Except.error e => Except.error e
    | Except.ok units =>
      match firstDuplicate (units.map MigrationUnit.id) with
      | some d => Except.error (CatalogError.duplicateIdError d)
      | none => Except.ok units

/-- Records created by one `up` invocation for a list of units, with the
shared batch number and consecutive `applied_at` clocks. -/
def mkRecords (batch : Nat) : Nat → List MigrationUnit → List AppliedRecord
  | _, [] => []
  | clock, u :: rest => ⟨u.id, batch, clock⟩ :: mkRecords batch (clock + 1) rest

/-- A database in which every statement succeeds. -/
def dbEnvAllOk : DbEnv :=
  ⟨fun _ => none, fun _ => none⟩

/-- A database in which the forward statements of unit `m2` fail. -/
def dbEnvFailM2 : DbEnv :=
  ⟨fun id => if id = "m2" then some "relation already exists" else none, fun _ => none⟩

/-! ## Theorems -/

/-- The accumulator-passing token loop of the source equals the direct
recursion that transcribes the claim, modulo the accumulators. -/
theorem formatOpsGo_eq_spec (ops acc warns : List String) :
    formatOpsGo ops acc warns =
      (acc ++ (formatOperationsSpec ops).1, warns ++ (formatOperationsSpec ops).2) := by
  induction ops using formatOperationsSpec.induct generalizing acc warns <;>
    simp [formatOpsGo, formatOperationsSpec, *, List.append_assoc]

/-- C10: for every token list given to the CLI `alter` command, the parser
emits, in input order, one `"<keyword> <argument>"` operation for each
keyword of {add, drop, modify, rename} immediately followed by another token
(consuming both); a non-keyword token, or a keyword in final position, is
skipped with a warning and parsing continues; and the `alter` dispatch always
goes on to invoke `create_alter_migration` with the formatted operations —
malformed operations never abort the command. -/
theorem c10_alter_token_loop :
    (∀ operations, formatOperations operations = formatOperationsSpec operations)
    ∧ ∀ table op ops env,
        (cliMain ("alter" :: table :: op :: ops) env).calls
          = [ManagerCall.createAlterMigration table (formatOperationsSpec (op :: ops)).1] := by
  constructor
  · intro operations
    simpa [formatOperations] using formatOpsGo_eq_spec operations [] []
  · intro table op ops env
    have h := formatOpsGo_eq_spec (op :: ops) [] []
    cases henv : env.alterRaises <;>
      simp [cliMain, runManagerOp, henv, formatOperations, h]

/-- C5: `get_pending_migrations` returns exactly the discovered migrations
that are not among the applied ones, in the order `get_all_migrations`
returned them (its output is a sublist of the input list). -/
theorem c5_get_pending_migrations (all_migrations applied : List String) :
    (∀ m, m ∈ get_pending_migrations all_migrations applied
        ↔ m ∈ all_migrations ∧ m ∉ applied)
    ∧ List.Sublist (get_pending_migrations all_migrations applied) all_migrations := by
  constructor
  · intro m
    simp [get_pending_migrations]
  · exact List.filter_sublist _

/-- C9 as stated is false: the claim's round trip fails on the key `UUID`,
whose SQL image `uuid` maps back to `String`, not `UUID`. -/
theorem c9_counterexample :
    ¬ (∀ s v, lookupType modelToMigrationTypeMapping s = some v →
        lookupType ormTypeMapping v = some s) := by
  intro h
  have h2 := h "UUID" "uuid" (by decide)
  exact absurd h2 (by decide)

/-- C9 amended: for every SQLAlchemy type name that is a key of
`ModelToMigrationGenerator.TYPE_MAPPING` other than `Numeric` and `UUID`,
looking its SQL image up in `ORMGenerator.TYPE_MAPPING` yields the original
name again. -/
theorem c9_type_mappings_inverse :
    ∀ s ∈ mappingKeys modelToMigrationTypeMapping,
      s ≠ "Numeric" → s ≠ "UUID" → typeRoundTrip s = some s := by
  decide

/-- Witness for the amended C9 at the key `String`. -/
theorem c9_type_mappings_inverse_witness :
    typeRoundTrip "String" = some "String" :=
  c9_type_mappings_inverse "String" (by decide) (by decide) (by decide)

/-- C1: evaluation of the CLI `run` branch — with a valid action (`up` or
`down`) the dispatch validates the arguments, invokes no manager operation at
all (in particular not `run_specific_migration`), reports no error and exits
0.  The named unit's forward/reverse operation is never executed and the
ledger is never touched, contradicting the claimed 1:1 mapping to the
Runner's explicit-unit operation. -/
theorem c1_run_cli_never_invokes_runner (name : String) (env : ManagerEnv) :
    cliMain ["run", name, "up"] env = ⟨0, false, []⟩
    ∧ cliMain ["run", name, "down"] env = ⟨0, false, []⟩ := by
  exact ⟨rfl, rfl⟩

/-- C4 as stated is false: a `from-model` invocation whose generation raises
reports the error (caught inside `MigrationManager`) yet exits with code 0. -/
theorem c4_counterexample :
    (cliMain ["from-model", "./models"] envFromModelFail).errorReported = true
    ∧ (cliMain ["from-model", "./models"] envFromModelFail).exitCode = 0 := by
  decide

/-- C4 amended: every CLI invocation that exits non-zero either reported an
error or was the bare no-command invocation; and every reported error yields
a non-zero exit except those raised and caught inside the `init`, `sync` and
`from-model` manager paths, which are reported but exit 0. -/
theorem c4_exit_codes (args : List String) (env : ManagerEnv) :
    ((cliMain args env).exitCode ≠ 0 →
      (cliMain args env).errorReported = true ∨ args = [])
    ∧ ((cliMain args env).errorReported = true →
        (cliMain args env).exitCode ≠ 0
        ∨ args.head? = some "init" ∨ args.head? = some "sync"
        ∨ args.head? = some "from-model") := by
  cases args with
  | nil => simp [cliMain]
  | cons command rest =>
    by_cases h1 : command = "init"
    · subst h1
      cases hfe : env.initFileExists <;> cases huc : env.initUserConfirms <;>
        cases hw : env.initWriteRaises <;> simp [cliMain, hfe, huc, hw]
    · by_cases h2 : command = "create"
      · subst h2
        cases rest with
        | nil => simp [cliMain]
        | cons name cols =>
          cases hc : env.createRaises <;> simp [cliMain, runManagerOp, hc]
      · by_cases h3 : command = "alter"
        · subst h3
          match rest with
          | [] => simp [cliMain]
          | [table] => simp [cliMain]
          | table :: op :: ops =>
            cases ha : env.alterRaises <;> simp [cliMain, runManagerOp, ha]
        · by_cases h4 : command = "up"
          · subst h4
            cases hu : env.upRaises <;> simp [cliMain, runManagerOp, hu]
          · by_cases h5 : command = "down"
            · subst h5
              cases hd : env.downRaises <;> simp [cliMain, runManagerOp, hd]
            · by_cases h6 : command = "status"
              · subst h6
                cases hs : env.statusRaises <;> simp [cliMain, runManagerOp, hs]
              · by_cases h7 : command = "run"
                · subst h7
                  match rest with
                  | [] => simp [cliMain]
                  | [name] => simp [cliMain]
                  | name :: action :: more =>
                    by_cases hact : action = "up" ∨ action = "down" <;>
                      simp [cliMain, hact]
                · by_cases h8 : command = "sync"
                  · subst h8
                    cases ho : env.ormEnabled
                    · simp [cliMain, ho]
                    · cases hs : env.syncRaises <;> simp [cliMain, ho, hs]
                  · by_cases h9 : command = "from-model"
                    · subst h9
                      match rest with
                      | [] => simp [cliMain]
                      | path :: names =>
                        cases hf : env.fromModelRaises
                        · cases hg : env.fromModelGenerated <;>
                            simp [cliMain, hf, hg]
                        · simp [cliMain, hf]
                    · simp [cliMain, h1, h2, h3, h4, h5, h6, h7, h8, h9]

/-- Witness for the amended C4: the failing `sync` invocation reports an
error, and the theorem places it among the swallowing commands. -/
theorem c4_exit_codes_witness :
    (cliMain ["sync"] envSyncFail).exitCode ≠ 0
    ∨ (["sync"] : List String).head? = some "init"
    ∨ (["sync"] : List String).head? = some "sync"
    ∨ (["sync"] : List String).head? = some "from-model" :=
  (c4_exit_codes ["sync"] envSyncFail).2 (by decide)

/-- C8: the migration content generated from a model has an `up()` returning
a `CREATE TABLE` statement for the given table name, a `down()` returning a
`DROP TABLE IF EXISTS` statement for that same table name — both embedded in
the generated file — and at the schema level the drop undoes the create
exactly. -/
theorem c8_generated_migration_inverse (model_name table_name : String)
    (columns : List ColumnInfo) :
    (∃ a b, migrationUpReturn table_name columns
        = a ++ ("CREATE TABLE " ++ table_name ++ " (") ++ b)
    ∧ migrationDownReturn table_name
        = "DROP TABLE IF EXISTS \"" ++ table_name ++ "\";"
    ∧ (∃ a b, create_migration_content model_name table_name columns
        = a ++ migrationUpReturn table_name columns ++ b)
    ∧ (∃ a b, create_migration_content model_name table_name columns
        = a ++ migrationDownReturn table_name ++ b)
    ∧ ∀ schema : List String, table_name ∉ schema →
        dropTableIfExists table_name (createTable table_name schema) = schema := by
  refine ⟨⟨"\n        ",
      "\n            id SERIAL PRIMARY KEY,\n" ++ columnsText columns
        ++ "\n            created_at TIMESTAMP DEFAULT NOW(),\n            updated_at TIMESTAMP DEFAULT NOW()\n        );\n        ",
      ?_⟩, rfl,
    ⟨"from john_migrator.migrations.base_migration import BaseMigration\n\nclass "
        ++ model_name
        ++ "(BaseMigration):\n    def __init__(self):\n        self.table_name = \""
        ++ table_name ++ "\"\n\n    def up(self):\n        return \"\"\"",
      "\"\"\"\n\n    def down(self):\n        return f\x27"
        ++ migrationDownReturn table_name ++ "\x27\n", ?_⟩,
    ⟨"from john_migrator.migrations.base_migration import BaseMigration\n\nclass "
        ++ model_name
        ++ "(BaseMigration):\n    def __init__(self):\n        self.table_name = \""
        ++ table_name ++ "\"\n\n    def up(self):\n        return \"\"\""
        ++ migrationUpReturn table_name columns
        ++ "\"\"\"\n\n    def down(self):\n        return f\x27",
      "\x27\n", ?_⟩, ?_⟩
  · simp only [migrationUpReturn, String.append_assoc]
    rw [← String.append_assoc "\n        " "CREATE TABLE ",
      ← String.append_assoc " (" "\n            id SERIAL PRIMARY KEY,\n"]
    rfl
  · simp only [create_migration_content, String.append_assoc]
  · simp only [create_migration_content, String.append_assoc]
  · intro schema hs
    unfold createTable dropTableIfExists
    rw [List.filter_append]
    have h1 : schema.filter (fun x => decide (x ≠ table_name)) = schema := by
      rw [List.filter_eq_self]
      intro a ha
      simp only [decide_eq_true_eq]
      intro hcontra
      exact hs (hcontra ▸ ha)
    have h2 : ([table_name].filter fun x => decide (x ≠ table_name)) = [] := by
      simp
    rw [h1, h2, List.append_nil]

/-- Witness for C8 at a concrete model, table, column list and schema. -/
theorem c8_generated_migration_inverse_witness :
    dropTableIfExists "users" (createTable "users" ["posts"]) = ["posts"] :=
  (c8_generated_migration_inverse "User" "users" []).2.2.2.2 ["posts"] (by decide)

/-! ### Runner lemmas -/

theorem appliedIds_append (l₁ l₂ : List AppliedRecord) :
    appliedIds (l₁ ++ l₂) = appliedIds l₁ ++ appliedIds l₂ :=
  List.map_append _ _ _

theorem appliedIds_mkRecords (b : Nat) :
    ∀ (c : Nat) (p : List MigrationUnit),
      appliedIds (mkRecords b c p) = p.map MigrationUnit.id := by
  intro c p
  induction p generalizing c with
  | nil => rfl
  | cons u rest ih =>
    simp only [appliedIds] at ih ⊢
    simp [mkRecords, ih]

theorem mem_appliedIds_record_applied (id : String) (b c : Nat)
    (L : List AppliedRecord) : id ∈ appliedIds (record_applied id b c L) := by
  unfold record_applied
  split
  · assumption
  · simp [appliedIds_append, appliedIds]

theorem record_applied_mono (id : String) (b c : Nat) (L : List AppliedRecord)
    (x : String) (hx : x ∈ appliedIds L) :
    x ∈ appliedIds (record_applied id b c L) := by
  unfold record_applied
  split
  · exact hx
  · simp [appliedIds_append]
    exact Or.inl hx

theorem record_applied_of_not_mem (id : String) (b c : Nat)
    (L : List AppliedRecord) (h : id ∉ appliedIds L) :
    record_applied id b c L = L ++ [⟨id, b, c⟩] := by
  unfold record_applied
  rw [if_neg h]

theorem nodup_appliedIds_record_applied (id : String) (b c : Nat)
    (L : List AppliedRecord) (h : (appliedIds L).Nodup) :
    (appliedIds (record_applied id b c L)).Nodup := by
  unfold record_applied
  split
  · exact h
  · rename_i hmem
    rw [appliedIds_append]
    exact List.nodup_append.mpr
      ⟨h, List.nodup_singleton _, List.disjoint_singleton.mpr hmem⟩

theorem appliedIds_unrecord_sublist (i : String) (L : List AppliedRecord) :
    List.Sublist (appliedIds (unrecord i L)) (appliedIds L) :=
  (List.filter_sublist _).map _

theorem nodup_appliedIds_unrecord (i : String) (L : List AppliedRecord)
    (h : (appliedIds L).Nodup) : (appliedIds (unrecord i L)).Nodup :=
  List.Nodup.sublist (appliedIds_unrecord_sublist i L) h

theorem runUpAux_nil (env : DbEnv) (b clock : Nat) (L : List AppliedRecord) :
    runUpAux env b clock [] L = ⟨L, [], [], none⟩ :=
  rfl

theorem runUpAux_ledger_mono (env : DbEnv) (b : Nat) :
    ∀ (units : List MigrationUnit) (clock : Nat) (L : List AppliedRecord)
      (x : String), x ∈ appliedIds L →
      x ∈ appliedIds (runUpAux env b clock units L).ledger := by
  intro units
  induction units with
  | nil => intro clock L x hx; exact hx
  | cons u rest ih =>
    intro clock L x hx
    cases hE : env.forwardErr u.id with
    | some e => simp [runUpAux, hE]; exact hx
    | none =>
      simp only [runUpAux, hE]
      exact ih _ _ x (record_applied_mono u.id b clock L x hx)

theorem runUpAux_nodup (env : DbEnv) (b : Nat) :
    ∀ (units : List MigrationUnit) (clock : Nat) (L : List AppliedRecord),
      (appliedIds L).Nodup →
      (appliedIds (runUpAux env b clock units L).ledger).Nodup := by
  intro units
  induction units with
  | nil => intro clock L h; exact h
  | cons u rest ih =>
    intro clock L h
    cases hE : env.forwardErr u.id with
    | some e => simp [runUpAux, hE]; exact h
    | none =>
      simp only [runUpAux, hE]
      exact ih _ _ (nodup_appliedIds_record_applied u.id b clock L h)

theorem runUpAux_complete (env : DbEnv) (b : Nat) :
    ∀ (units : List MigrationUnit) (clock : Nat) (L : List AppliedRecord),
      (runUpAux env b clock units L).failed = none →
      ∀ u ∈ units, u.id ∈ appliedIds (runUpAux env b clock units L).ledger := by
  intro units
  induction units with
  | nil => intro clock L _ u hu; exact absurd hu (List.not_mem_nil u)
  | cons v rest ih =>
    intro clock L hnone u hu
    cases hE : env.forwardErr v.id with
    | some e => simp [runUpAux, hE] at hnone
    | none =>
      simp only [runUpAux, hE] at hnone ⊢
      rcases List.mem_cons.mp hu with rfl | hmem
      · exact runUpAux_ledger_mono env b rest (clock + 1) _ u.id
          (mem_appliedIds_record_applied u.id b clock L)
      · exact ih _ _ hnone u hmem

theorem runUpAux_executed_subset (env : DbEnv) (b : Nat) :
    ∀ (units : List MigrationUnit) (clock : Nat) (L : List AppliedRecord)
      (x : String), x ∈ (runUpAux env b clock units L).executed →
      x ∈ units.map MigrationUnit.id := by
  intro units
  induction units with
  | nil => intro clock L x hx; exact absurd hx (List.not_mem_nil x)
  | cons u rest ih =>
    intro clock L x hx
    cases hE : env.forwardErr u.id with
    | some e =>
      simp [runUpAux, hE] at hx
      simp [hx]
    | none =>
      simp only [runUpAux, hE] at hx
      rcases List.mem_cons.mp hx with rfl | hmem
      · simp
      · simp only [List.map_cons, List.mem_cons]
        exact Or.inr (ih _ _ x hmem)

theorem mem_pendingUnits (catalog : List MigrationUnit)
    (L : List AppliedRecord) (u : MigrationUnit) :
    u ∈ pendingUnits catalog L ↔ u ∈ catalog ∧ u.id ∉ appliedIds L := by
  simp [pendingUnits]

theorem pendingUnits_eq_nil (catalog : List MigrationUnit)
    (L : List AppliedRecord) (h : ∀ u ∈ catalog, u.id ∈ appliedIds L) :
    pendingUnits catalog L = [] := by
  rw [pendingUnits, List.filter_eq_nil_iff]
  intro u hu
  simp [h u hu]

theorem pendingUnits_append (catalog : List MigrationUnit)
    (L ext : List AppliedRecord) :
    pendingUnits catalog (L ++ ext)
      = (pendingUnits catalog L).filter (fun u => decide (u.id ∉ appliedIds ext)) := by
  unfold pendingUnits
  rw [List.filter_filter]
  apply List.filter_congr
  intro u _
  rw [appliedIds_append]
  simp [List.mem_append, not_or, Bool.and_comm]

theorem pendingUnits_map_id_nodup (catalog : List MigrationUnit)
    (L : List AppliedRecord) (h : (catalog.map MigrationUnit.id).Nodup) :
    ((pendingUnits catalog L).map MigrationUnit.id).Nodup :=
  List.Nodup.sublist ((List.filter_sublist _).map _) h

theorem runUpAux_fail (env : DbEnv) (b : Nat) (u : MigrationUnit) (e : String)
    (p₂ : List MigrationUnit) (hfail : env.forwardErr u.id = some e) :
    ∀ (p₁ : List MigrationUnit) (clock : Nat) (L : List AppliedRecord),
      (∀ v ∈ p₁, env.forwardErr v.id = none) →
      ((p₁ ++ u :: p₂).map MigrationUnit.id).Nodup →
      (∀ v ∈ p₁ ++ u :: p₂, v.id ∉ appliedIds L) →
      runUpAux env b clock (p₁ ++ u :: p₂) L
        = ⟨L ++ mkRecords b clock p₁,
            p₁.map MigrationUnit.id ++ [u.id],
            p₁.map MigrationUnit.id, some (u.id, e)⟩ := by
  intro p₁
  induction p₁ with
  | nil =>
    intro clock L _ _ _
    simp [runUpAux, hfail, mkRecords]
  | cons v p₁ ih =>
    intro clock L hok hnd hdisj
    have hv : env.forwardErr v.id = none := hok v (List.mem_cons_self v p₁)
    have hvnot : v.id ∉ appliedIds L := hdisj v (List.mem_cons_self v _)
    have hndtail : ((p₁ ++ u :: p₂).map MigrationUnit.id).Nodup := by
      rw [List.cons_append, List.map_cons] at hnd
      exact hnd.of_cons
    have hvhead : v.id ∉ ((p₁ ++ u :: p₂).map MigrationUnit.id) := by
      rw [List.cons_append, List.map_cons, List.nodup_cons] at hnd
      exact hnd.1
    have hdisj' : ∀ w ∈ p₁ ++ u :: p₂,
        w.id ∉ appliedIds (L ++ [⟨v.id, b, clock⟩]) := by
      intro w hw
      rw [appliedIds_append]
      simp only [appliedIds, List.map_cons, List.map_nil, List.mem_append,
        List.mem_singleton, not_or]
      refine ⟨hdisj w (List.mem_cons_of_mem v hw), ?_⟩
      intro hcontra
      exact hvhead (hcontra ▸ List.mem_map_of_mem MigrationUnit.id hw)
    have hrec := ih (clock + 1) (L ++ [⟨v.id, b, clock⟩])
      (fun w hw => hok w (List.mem_cons_of_mem v hw)) hndtail hdisj'
    simp only [List.cons_append, runUpAux, hv, List.append_eq]
    rw [record_applied_of_not_mem v.id b clock L hvnot]
    rw [hrec]
    simp [mkRecords, List.append_assoc]

theorem runDownAux_nodup (env : DbEnv) :
    ∀ (ids : List String) (L : List AppliedRecord),
      (appliedIds L).Nodup →
      (appliedIds (runDownAux env ids L).ledger).Nodup := by
  intro ids
  induction ids with
  | nil => intro L h; exact h
  | cons id rest ih =>
    intro L h
    cases hE : env.reverseErr id with
    | some e => simp [runDownAux, hE]; exact h
    | none =>
      simp only [runDownAux, hE]
      exact ih _ (nodup_appliedIds_unrecord id L h)

theorem stepLedger_nodup (L : List AppliedRecord) (op : RunnerOp)
    (h : (appliedIds L).Nodup) : (appliedIds (stepLedger L op)).Nodup := by
  cases op with
  | up catalog env =>
    simp only [stepLedger, runUp]
    exact runUpAux_nodup env _ _ _ _ h
  | down env =>
    simp only [stepLedger, runDown]
    split
    · exact h
    · exact runDownAux_nodup env _ _ h
  | runOne catalog id isUp env =>
    simp only [stepLedger, runSpecificLedger]
    split
    · exact h
    · split
      · split
        · exact h
        · exact nodup_appliedIds_record_applied _ _ _ _ h
      · split
        · exact h
        · split
          · exact h
          · exact nodup_appliedIds_unrecord _ _ h

theorem foldl_stepLedger_nodup :
    ∀ (ops : List RunnerOp) (L : List AppliedRecord),
      (appliedIds L).Nodup →
      (appliedIds (ops.foldl stepLedger L)).Nodup := by
  intro ops
  induction ops with
  | nil => intro L h; exact h
  | cons op rest ih =>
    intro L h
    exact ih _ (stepLedger_nodup L op h)

/-- C3: after every sequence of up/down/run operations starting from the
fresh ledger, the ledger holds at most one AppliedRecord per migration id;
and a second `up` in a row, after a fully successful one, is a no-op —
ledger unchanged and no statements executed. -/
theorem c3_ledger_unique_and_idempotent :
    (∀ ops : List RunnerOp, (appliedIds (ops.foldl stepLedger [])).Nodup)
    ∧ ∀ (catalog : List MigrationUnit) (ledger : List AppliedRecord)
        (env env₂ : DbEnv),
        (runUp catalog ledger env).failed = none →
        runUp catalog (runUp catalog ledger env).ledger env₂
          = ⟨(runUp catalog ledger env).ledger, [], [], none⟩ := by
  constructor
  · intro ops
    exact foldl_stepLedger_nodup ops [] (by simp [appliedIds])
  · intro catalog ledger env env₂ hnone
    have hall : ∀ w ∈ catalog,
        w.id ∈ appliedIds (runUp catalog ledger env).ledger := by
      intro w hw
      by_cases hap : w.id ∈ appliedIds ledger
      · exact runUpAux_ledger_mono env _ _ _ _ w.id hap
      · exact runUpAux_complete env _ _ _ _ hnone w
          ((mem_pendingUnits catalog ledger w).mpr ⟨hw, hap⟩)
    have hpend : pendingUnits catalog (runUp catalog ledger env).ledger = [] :=
      pendingUnits_eq_nil _ _ hall
    conv_lhs => rw [runUp, hpend]
    rfl

/-- Witness for C3 on a one-unit catalog with a succeeding database. -/
theorem c3_ledger_unique_and_idempotent_witness :
    runUp [⟨"m1"⟩] (runUp [⟨"m1"⟩] [] dbEnvAllOk).ledger dbEnvAllOk
      = ⟨(runUp [⟨"m1"⟩] [] dbEnvAllOk).ledger, [], [], none⟩ :=
  c3_ledger_unique_and_idempotent.2 [⟨"m1"⟩] [] dbEnvAllOk dbEnvAllOk (by decide)

/-- C2: when a pending unit's forward operation fails during `up`, the
failing unit's id and database error are reported, its own transaction is
rolled back (it is not committed and stays pending), the remaining pending
units are not attempted and remain pending, the units committed earlier in
the invocation keep their applied state, and a re-invocation of `up` sees
exactly the failed unit and its successors as pending — never re-executing
the earlier ones. -/
theorem c2_up_failure_semantics (catalog : List MigrationUnit)
    (ledger : List AppliedRecord) (env env₂ : DbEnv)
    (p₁ p₂ : List MigrationUnit) (u : MigrationUnit) (e : String)
    (hnodup : (catalog.map MigrationUnit.id).Nodup)
    (hp : pendingUnits catalog ledger = p₁ ++ u :: p₂)
    (hok : ∀ v ∈ p₁, env.forwardErr v.id = none)
    (hfail : env.forwardErr u.id = some e) :
    (runUp catalog ledger env).failed = some (u.id, e)
    ∧ (runUp catalog ledger env).committed = p₁.map MigrationUnit.id
    ∧ u.id ∉ (runUp catalog ledger env).committed
    ∧ (runUp catalog ledger env).executed = p₁.map MigrationUnit.id ++ [u.id]
    ∧ (∀ v ∈ p₂, v.id ∉ (runUp catalog ledger env).executed)
    ∧ (∀ v ∈ p₁, v.id ∈ appliedIds (runUp catalog ledger env).ledger)
    ∧ pendingUnits catalog (runUp catalog ledger env).ledger = u :: p₂
    ∧ ∀ v ∈ p₁,
        v.id ∉ (runUp catalog (runUp catalog ledger env).ledger env₂).executed := by
  have hpnd : ((p₁ ++ u :: p₂).map MigrationUnit.id).Nodup := by
    rw [← hp]
    exact pendingUnits_map_id_nodup catalog ledger hnodup
  have hdisj : ∀ v ∈ p₁ ++ u :: p₂, v.id ∉ appliedIds ledger := by
    intro v hv
    exact ((mem_pendingUnits catalog ledger v).mp (hp ▸ hv)).2
  have hsplit := List.nodup_append.mp (by simpa using hpnd)
  have hd₁ : ∀ x ∈ p₁.map MigrationUnit.id, x ∉ u.id :: p₂.map MigrationUnit.id :=
    fun x hx => hsplit.2.2 hx
  have hchar : runUp catalog ledger env
      = ⟨ledger ++ mkRecords (nextBatch ledger) ledger.length p₁,
          p₁.map MigrationUnit.id ++ [u.id],
          p₁.map MigrationUnit.id, some (u.id, e)⟩ := by
    rw [runUp, hp]
    exact runUpAux_fail env (nextBatch ledger) u e p₂ hfail p₁ ledger.length ledger
      hok hpnd hdisj
  have hpend₂ : pendingUnits catalog (runUp catalog ledger env).ledger
      = u :: p₂ := by
    rw [hchar]
    rw [pendingUnits_append, appliedIds_mkRecords, hp, List.filter_append]
    have h1 : p₁.filter (fun w => decide (w.id ∉ p₁.map MigrationUnit.id)) = [] := by
      rw [List.filter_eq_nil_iff]
      intro w hw
      simp only [decide_eq_true_eq, not_not]
      exact List.mem_map_of_mem MigrationUnit.id hw
    have h2 : (u :: p₂).filter (fun w => decide (w.id ∉ p₁.map MigrationUnit.id))
        = u :: p₂ := by
      rw [List.filter_eq_self]
      intro w hw
      simp only [decide_eq_true_eq]
      intro hcontra
      have : w.id ∈ u.id :: p₂.map MigrationUnit.id := by
        rcases List.mem_cons.mp hw with rfl | hmem
        · exact List.mem_cons_self _ _
        · exact List.mem_cons_of_mem _ (List.mem_map_of_mem MigrationUnit.id hmem)
      exact hd₁ w.id hcontra this
    rw [h1, h2, List.nil_append]
  refine ⟨by rw [hchar], by rw [hchar], ?_, by rw [hchar], ?_, ?_, hpend₂, ?_⟩
  · rw [hchar]
    intro hcontra
    exact hd₁ u.id hcontra (List.mem_cons_self _ _)
  · intro v hv
    rw [hchar]
    simp only [List.mem_append, List.mem_singleton, not_or]
    constructor
    · intro hcontra
      exact hd₁ v.id hcontra
        (List.mem_cons_of_mem _ (List.mem_map_of_mem MigrationUnit.id hv))
    · intro hcontra
      have hu : u.id ∈ u.id :: p₂.map MigrationUnit.id := List.mem_cons_self _ _
      have : v.id ∈ u.id :: p₂.map MigrationUnit.id := by
        rw [hcontra]
        exact hu
      have hvmem : v.id ∈ p₂.map MigrationUnit.id :=
        List.mem_map_of_mem MigrationUnit.id hv
      have hnd₂ := hsplit.2.1
      rw [List.nodup_cons] at hnd₂
      exact hnd₂.1 (hcontra ▸ hvmem)
  · intro v hv
    rw [hchar, appliedIds_append, appliedIds_mkRecords]
    exact List.mem_append.mpr (Or.inr (List.mem_map_of_mem MigrationUnit.id hv))
  · intro v hv hcontra
    have hx := runUpAux_executed_subset env₂ _ _ _ _ v.id
      (by rw [runUp, hpend₂] at hcontra; exact hcontra)
    exact hd₁ v.id (List.mem_map_of_mem MigrationUnit.id hv) (by simpa using hx)

/-- Witness for C2 on a three-unit catalog where the second unit's forward
statements fail. -/
theorem c2_up_failure_semantics_witness :
    (runUp [⟨"m1"⟩, ⟨"m2"⟩, ⟨"m3"⟩] [] dbEnvFailM2).failed
      = some ("m2", "relation already exists")
    ∧ (runUp [⟨"m1"⟩, ⟨"m2"⟩, ⟨"m3"⟩] [] dbEnvFailM2).committed = ["m1"] :=
  have h := c2_up_failure_semantics [⟨"m1"⟩, ⟨"m2"⟩, ⟨"m3"⟩] [] dbEnvFailM2
    dbEnvAllOk [⟨"m1"⟩] [⟨"m3"⟩] ⟨"m2"⟩ "relation already exists"
    (by decide) (by decide) (by decide) (by decide)
  ⟨h.1, h.2.1⟩

theorem runDownAux_char (env : DbEnv) :
    ∀ (ids : List String) (L : List AppliedRecord),
      (∃ rest, (runDownAux env ids L).removed ++ rest = ids)
      ∧ (∀ id ∈ (runDownAux env ids L).removed, env.reverseErr id = none)
      ∧ (runDownAux env ids L).ledger
          = (runDownAux env ids L).removed.foldl (fun l i => unrecord i l) L
      ∧ (runDownAux env ids L).nothingToRollBack = false := by
  intro ids
  induction ids with
  | nil =>
    intro L
    exact ⟨⟨[], rfl⟩, by simp [runDownAux], rfl, rfl⟩
  | cons id rest ih =>
    intro L
    cases hE : env.reverseErr id with
    | some e =>
      refine ⟨⟨id :: rest, ?_⟩, ?_, ?_, ?_⟩ <;> simp [runDownAux, hE]
    | none =>
      obtain ⟨⟨t, ht⟩, hok, hled, hflag⟩ := ih (unrecord id L)
      refine ⟨⟨t, ?_⟩, ?_, ?_, ?_⟩
      · simp only [runDownAux, hE]
        rw [List.cons_append, ht]
      · intro i hi
        simp only [runDownAux, hE] at hi
        rcases List.mem_cons.mp hi with rfl | hmem
        · exact hE
        · exact hok i hmem
      · simp only [runDownAux, hE]
        rw [List.foldl_cons]
        exact hled
      · simp [runDownAux, hE, hflag]

/-- C6: `down` on an empty ledger reports "nothing to roll back" and is a
successful no-op (the CLI `down` command exits 0 and reports no error when
the rollback returns normally); on a non-empty ledger it processes a prefix
of the highest batch's ids in reverse-application order, unrecords an id
only after its reverse operation succeeded, and touches nothing else. -/
theorem c6_down_rollback (ledger : List AppliedRecord) (env : DbEnv)
    (cenv : ManagerEnv) :
    runDown [] env = ⟨[], [], true, none⟩
    ∧ (cenv.downRaises = none →
        (cliMain ["down"] cenv).exitCode = 0
        ∧ (cliMain ["down"] cenv).errorReported = false)
    ∧ (ledger ≠ [] →
        (∃ rest, (runDown ledger env).removed ++ rest = lastBatchIds ledger)
        ∧ (∀ id ∈ (runDown ledger env).removed, env.reverseErr id = none)
        ∧ (runDown ledger env).ledger
            = (runDown ledger env).removed.foldl (fun l i => unrecord i l) ledger
        ∧ (runDown ledger env).nothingToRollBack = false) := by
  refine ⟨rfl, ?_, ?_⟩
  · intro h
    simp [cliMain, runManagerOp, h]
  · intro hne
    have hif : ledger.isEmpty = false := by
      cases ledger with
      | nil => exact absurd rfl hne
      | cons r rest => rfl
    have := runDownAux_char env (lastBatchIds ledger) ledger
    simpa [runDown, hif] using this

/-- Witness for C6: the CLI `down` path with a succeeding rollback exits 0,
and rolling back a one-record ledger takes the non-empty branch. -/
theorem c6_down_rollback_witness :
    ((cliMain ["down"] envAllOk).exitCode = 0
      ∧ (cliMain ["down"] envAllOk).errorReported = false)
    ∧ (runDown [⟨"m1", 1, 0⟩] dbEnvAllOk).nothingToRollBack = false :=
  ⟨(c6_down_rollback [] dbEnvAllOk envAllOk).2.1 rfl,
    ((c6_down_rollback [⟨"m1", 1, 0⟩] dbEnvAllOk envAllOk).2.2 (by decide)).2.2.2⟩

theorem parseAllUnits_fail :
    ∀ (files : List RawUnit) (f : RawUnit), f ∈ files → f.parsed = none →
      ∃ msg, parseAllUnits files = Except.error (CatalogError.discoveryError msg) := by
  intro files
  induction files with
  | nil => intro f hf; exact absurd hf (List.not_mem_nil f)
  | cons g fs ih =>
    intro f hf hnone
    cases hg : g.parsed with
    | none =>
      exact ⟨"failed to load " ++ g.filename, by simp [parseAllUnits, hg]⟩
    | some u =>
      rcases List.mem_cons.mp hf with rfl | hmem
      · rw [hnone] at hg
        exact absurd hg (by simp)
      · obtain ⟨msg, hm⟩ := ih f hmem hnone
        exact ⟨msg, by simp [parseAllUnits, hg, hm]⟩

theorem parseAllUnits_ok :
    ∀ (files : List RawUnit) (us : List MigrationUnit),
      parseAllUnits files = Except.ok us →
      List.Forall₂ (fun (f : RawUnit) (u : MigrationUnit) => f.parsed = some u)
        files us := by
  intro files
  induction files with
  | nil =>
    intro us h
    simp only [parseAllUnits] at h
    cases h
    exact List.Forall₂.nil
  | cons g fs ih =>
    intro us h
    cases hg : g.parsed with
    | none => simp [parseAllUnits, hg] at h
    | some u =>
      cases hrest : parseAllUnits fs with
      | error e => simp [parseAllUnits, hg, hrest] at h
      | ok us' =>
        simp only [parseAllUnits, hg, hrest] at h
        cases h
        exact List.Forall₂.cons hg (ih us' hrest)

theorem firstDuplicate_eq_none (l : List String) :
    firstDuplicate l = none ↔ l.Nodup := by
  induction l with
  | nil => simp [firstDuplicate]
  | cons x xs ih =>
    by_cases hx : x ∈ xs
    · simp [firstDuplicate, hx]
    · simp [firstDuplicate, hx, ih]

theorem forall₂_mem_right {α β : Type} {R : α → β → Prop} :
    ∀ {l₁ : List α} {l₂ : List β}, List.Forall₂ R l₁ l₂ →
      ∀ a ∈ l₁, ∃ b ∈ l₂, R a b := by
  intro l₁ l₂ h
  induction h with
  | nil => intro a ha; exact absurd ha (List.not_mem_nil a)
  | cons hr _ ih =>
    intro a ha
    rcases List.mem_cons.mp ha with rfl | hmem
    · exact ⟨_, List.mem_cons_self _ _, hr⟩
    · obtain ⟨b, hb, hrb⟩ := ih a hmem
      exact ⟨b, List.mem_cons_of_mem _ hb, hrb⟩

/-- C7: discovery fails with `DiscoveryError` when the migration directory is
unreadable or any unit fails to load (a malformed unit is surfaced, never
skipped — a successful discovery accounts for every file), and fails with
`DuplicateIdError` when two loaded units share an id. -/
theorem c7_discovery_failures (files : List RawUnit) :
    discover false files
      = Except.error (CatalogError.discoveryError "migration directory is unreadable")
    ∧ (∀ f ∈ files, f.parsed = none →
        ∃ msg, discover true files = Except.error (CatalogError.discoveryError msg))
    ∧ (∀ units, parseAllUnits files = Except.ok units →
        ¬ (units.map MigrationUnit.id).Nodup →
        ∃ d, discover true files = Except.error (CatalogError.duplicateIdError d))
    ∧ (∀ units, discover true files = Except.ok units →
        units.length = files.length
        ∧ ∀ f ∈ files, ∃ u ∈ units, f.parsed = some u) := by
  refine ⟨rfl, ?_, ?_, ?_⟩
  · intro f hf hnone
    obtain ⟨msg, hm⟩ := parseAllUnits_fail files f hf hnone
    exact ⟨msg, by simp [discover, hm]⟩
  · intro units hok hnd
    cases hfd : firstDuplicate (units.map MigrationUnit.id) with
    | none => exact absurd ((firstDuplicate_eq_none _).mp hfd) hnd
    | some d => exact ⟨d, by simp [discover, hok, hfd]⟩
  · intro units hdisc
    have hok : parseAllUnits files = Except.ok units := by
      simp only [discover] at hdisc
      cases hp : parseAllUnits files with
      | error e => rw [hp] at hdisc; simp at hdisc
      | ok us =>
        rw [hp] at hdisc
        simp at hdisc
        cases hfd : firstDuplicate (us.map MigrationUnit.id) with
        | some d => rw [hfd] at hdisc; simp at hdisc
        | none =>
          rw [hfd] at hdisc
          simp at hdisc
          rw [hdisc]
    have hfa := parseAllUnits_ok files units hok
    refine ⟨(List.Forall₂.length_eq hfa).symm, ?_⟩
    intro f hf
    obtain ⟨u, hu, hr⟩ := forall₂_mem_right hfa f hf
    exact ⟨u, hu, hr⟩

/-- Witness for C7: a malformed file yields a `DiscoveryError`, and two units
sharing the id `m1` yield a `DuplicateIdError`. -/
theorem c7_discovery_failures_witness :
    (∃ msg, discover true [⟨"bad.py", none⟩]
        = Except.error (CatalogError.discoveryError msg))
    ∧ (∃ d, discover true [⟨"a.py", some ⟨"m1"⟩⟩, ⟨"b.py", some ⟨"m1"⟩⟩]
        = Except.error (CatalogError.duplicateIdError d)) :=
  ⟨(c7_discovery_failures [⟨"bad.py", none⟩]).2.1 ⟨"bad.py", none⟩
      (by decide) rfl,
    (c7_discovery_failures [⟨"a.py", some ⟨"m1"⟩⟩, ⟨"b.py", some ⟨"m1"⟩⟩]).2.2.1
      [⟨"m1"⟩, ⟨"m1"⟩] rfl (by decide)⟩

end JohnMigrator
